import Mathlib

/-!
Verification development for the `logging` package of the gear repository
(`src/logging/logger.go`), a structured, leveled logging facility.

Shallow embedding notes:
* Go `interface{}` values reaching the formatter are modelled by `Value`:
  either a value without the `Messager` capability (rendered by `fmt.Sprint`,
  whose result we carry as the `plain` string), or a value with the capability,
  carrying the result of its `Format()` call (`Except err str`) and of its
  `String()` call.
* Machine time is abstracted: the output pipeline receives the already
  UTC-formatted timestamp string (`t.UTC().Format(logger.tf)` in the source).
* The destination `io.Writer` is modelled by `WState`: a list of successfully
  written chunks plus a schedule of results for successive `Write` calls
  (`none` = success, `some e` = the write fails with error `e` and writes
  nothing).
* Go `error` values are modelled as `String` messages; `nil` is `none`.
* Go maps (`Log = map[string]interface{}`) are modelled as association lists;
  in-place mutation of maps shared through references is modelled by a small
  heap (a list of maps addressed by index).
-/

namespace GearLogging

/-- Result of one Go `error` value: `none` is `nil`. -/
abbrev GoErr := String

/-- A Go value as seen by the formatter `format` in logger.go:
`plain s` is a value without the `Messager` capability whose `fmt.Sprint`
rendering is `s`; `messager fmtRes str` is a value with the capability whose
`Format()` call returns the (string, error) pair `fmtRes` and whose
`String()` call returns `str`. -/
inductive Value where
  | plain : String → Value
  | messager : String × Option GoErr → String → Value
deriving DecidableEq

/-- Embedding of `format` (logger.go lines 592-603): a `Messager` value uses
its `Format()` result when that succeeds, and falls back to its `String()`
render alongside the error when it fails; any other value is rendered with
`fmt.Sprint`. Returns (rendered string, error). -/
def format : Value → String × Option GoErr
  | Value.plain s => (s, none)
  | Value.messager (s, none) _ => (s, none)
  | Value.messager (_, some e) str => (str, some e)

/-- EmergLevel is 0, "Emergency" (logger.go line 110). -/
def EmergLevel : Nat := 0
/-- AlertLevel is 1, "Alert". -/
def AlertLevel : Nat := 1
/-- CritiLevel is 2, "Critical". -/
def CritiLevel : Nat := 2
/-- ErrLevel is 3, "Error". -/
def ErrLevel : Nat := 3
/-- WarningLevel is 4, "Warning". -/
def WarningLevel : Nat := 4
/-- NoticeLevel is 5, "Notice". -/
def NoticeLevel : Nat := 5
/-- InfoLevel is 6, "Informational". -/
def InfoLevel : Nat := 6
/-- DebugLevel is 7, "Debug". -/
def DebugLevel : Nat := 7

/-- Embedding of `Level.String` (logger.go lines 127-148). Go `Level` is a
`uint8`, embedded as `Nat` (values above 255 do not occur in Go). -/
def levelString (l : Nat) : String :=
  if l = EmergLevel then "EMERG"
  else if l = AlertLevel then "ALERT"
  else if l = CritiLevel then "CRIT"
  else if l = ErrLevel then "ERR"
  else if l = WarningLevel then "WARNING"
  else if l = NoticeLevel then "NOTICE"
  else if l = InfoLevel then "INFO"
  else if l = DebugLevel then "DEBUG"
  else "LOG"

/-- The Logger state relevant to the claims: the severity threshold field `l`
(logger.go line 248, a `uint8` embedded as `Nat`). -/
structure Logger where
  l : Nat
deriving DecidableEq

/-- Embedding of `Logger.checkLogLevel` (logger.go lines 257-260):
`level <= l.l`. -/
def Logger.checkLogLevel (lg : Logger) (level : Nat) : Bool :=
  level ≤ lg.l

/-- The value an emission method passes to `l.Output`: `withStack v` is
`gear.ErrorWithStack(v, 2)` (an error-with-call-stack wrapper; the wrapper
itself lives outside src/logging, so it is kept opaque), `raw v` is the value
passed through unwrapped. -/
inductive OutVal where
  | withStack : Value → OutVal
  | raw : Value → OutVal
deriving DecidableEq

/-- One invocation of the output pipeline `l.Output(tag, time.Now(), val)`:
the tag string and the (possibly wrapped) value. -/
structure OutputCall where
  tag : String
  val : OutVal
deriving DecidableEq

/-- Embedding of `Logger.Emerg` (logger.go lines 263-265): always calls
`l.Output(EmergLevel.String(), time.Now(), gear.ErrorWithStack(v, 2))`,
with no threshold check. -/
def Logger.Emerg (_ : Logger) (v : Value) : Option OutputCall :=
  some ⟨levelString EmergLevel, OutVal.withStack v⟩

/-- Embedding of `Logger.Alert` (logger.go lines 268-273): emits wrapped if
the threshold permits, otherwise returns nil without calling `Output`. -/
def Logger.Alert (lg : Logger) (v : Value) : Option OutputCall :=
  if lg.checkLogLevel AlertLevel then some ⟨levelString AlertLevel, OutVal.withStack v⟩
  else none

/-- Embedding of `Logger.Crit` (logger.go lines 276-281). -/
def Logger.Crit (lg : Logger) (v : Value) : Option OutputCall :=
  if lg.checkLogLevel CritiLevel then some ⟨levelString CritiLevel, OutVal.withStack v⟩
  else none

/-- Embedding of `Logger.Err` (logger.go lines 284-289). -/
def Logger.Err (lg : Logger) (v : Value) : Option OutputCall :=
  if lg.checkLogLevel ErrLevel then some ⟨levelString ErrLevel, OutVal.withStack v⟩
  else none

/-- Embedding of `Logger.Warning` (logger.go lines 292-297): the value is
passed through unwrapped. -/
def Logger.Warning (lg : Logger) (v : Value) : Option OutputCall :=
  if lg.checkLogLevel WarningLevel then some ⟨levelString WarningLevel, OutVal.raw v⟩
  else none

/-- Embedding of `Logger.Notice` (logger.go lines 300-305). -/
def Logger.Notice (lg : Logger) (v : Value) : Option OutputCall :=
  if lg.checkLogLevel NoticeLevel then some ⟨levelString NoticeLevel, OutVal.raw v⟩
  else none

/-- Embedding of `Logger.Info` (logger.go lines 308-313). -/
def Logger.Info (lg : Logger) (v : Value) : Option OutputCall :=
  if lg.checkLogLevel InfoLevel then some ⟨levelString InfoLevel, OutVal.raw v⟩
  else none

/-- Embedding of `Logger.Debug` (logger.go lines 316-321). -/
def Logger.Debug (lg : Logger) (v : Value) : Option OutputCall :=
  if lg.checkLogLevel DebugLevel then some ⟨levelString DebugLevel, OutVal.raw v⟩
  else none

/-- Embedding of `Logger.Debugf` (logger.go lines 324-329). `fmt.Sprintf` is
abstracted: `s` is the already-rendered result of
`fmt.Sprintf(format, args...)`, a plain string passed through unwrapped. -/
def Logger.Debugf (lg : Logger) (s : String) : Option OutputCall :=
  if lg.checkLogLevel DebugLevel then some ⟨levelString DebugLevel, OutVal.raw (Value.plain s)⟩
  else none

/-- State of the destination `io.Writer`: `chunks` are the successfully
written byte chunks in order; `errs` is the schedule of outcomes for the
successive `Write` calls still to come (`none` = success; `some e` = the call
fails with error `e` and writes nothing). An empty schedule means every write
succeeds. -/
structure WState where
  chunks : List String
  errs : List (Option GoErr)
deriving DecidableEq

/-- One `Write` call against the destination: consumes the head of the error
schedule; on success the chunk is appended. -/
def WState.write (w : WState) (s : String) : WState × Option GoErr :=
  match w.errs with
  | [] => (⟨w.chunks ++ [s], []⟩, none)
  | none :: rest => (⟨w.chunks ++ [s], rest⟩, none)
  | some e :: rest => (⟨w.chunks, rest⟩, some e)

/-- Embedding of the trailing-newline strip in the default output closure
(logger.go lines 211-213): `if l := len(s); l > 0 && s[l-1] == '\n'`
drops exactly the one final newline byte. -/
def stripNL (s : String) : String :=
  if s.data.getLast? = some '\n' then ⟨s.data.dropLast⟩ else s

/-- Per-character action of `crlfEscaper` (logger.go line 17):
`strings.NewReplacer("\r", "\\r", "\n", "\\n")`. -/
def escChar (c : Char) : List Char :=
  if c = '\r' then ['\\', 'r']
  else if c = '\n' then ['\\', 'n']
  else [c]

/-- Embedding of `crlfEscaper.Replace`: every carriage return becomes the two
characters backslash-r, every line feed the two characters backslash-n. -/
def crlfEscape (s : String) : String :=
  ⟨(s.data.map escChar).flatten⟩

/-- The default log format `"[%s] %s %s"` applied by `fmt.Fprintf`
(logger.go lines 185 and 217) to (formatted timestamp, tag, message). -/
def defaultLF (ts tag msg : String) : String :=
  "[" ++ ts ++ "] " ++ tag ++ " " ++ msg

/-- Embedding of the default output closure `logger.output` built in `New`
(logger.go lines 206-222): render the value with `format`, return its error
if any; strip one trailing newline; escape CR and LF; `Fprintf` the formatted
line; if and only if that write succeeded, write one `'\n'` byte, whose own
error is discarded (`logger.Out.Write([]byte{'\n'})`, result ignored); return
the `Fprintf` error. `ts` is the already UTC-formatted timestamp. -/
def outputDefault (w : WState) (ts tag : String) (v : Value) : WState × Option GoErr :=
  match format v with
  | (_, some e) => (w, some e)
  | (s, none) =>
    match WState.write w (defaultLF ts tag (crlfEscape (stripNL s))) with
    | (w1, some e) => (w1, some e)
    | (w1, none) => ((WState.write w1 "\n").1, none)

/-- Composition of a leveled emission method with an output hook `render`
(the pipeline installed via `SetOutput` or the default one): when the method
returned `none` before calling `Output`, the destination is untouched and the
method's result is nil; otherwise the hook runs on the recorded call. -/
def runEmit (render : OutputCall → WState → WState × Option GoErr)
    (w : WState) : Option OutputCall → WState × Option GoErr
  | none => (w, none)
  | some c => render c w

/-- Embedding of `Logger.SetLevel` (logger.go lines 376-384): Go `Level` is a
`uint8`; a value above `DebugLevel` panics with
`gear.Err.WithMsg("invalid logger level")` before the threshold field is
assigned (modelled as `Except.error` carrying the message, the receiver left
unchanged); otherwise the threshold is set and the logger returned. -/
def Logger.SetLevel (lg : Logger) (level : Nat) : Except GoErr Logger :=
  if level > DebugLevel then Except.error "invalid logger level"
  else Except.ok { lg with l := level }

/-- A Go `interface{}` value stored in a `Log` record: an integer, a string,
or some other value identified abstractly. -/
inductive GoVal where
  | vint : Int → GoVal
  | vstr : String → GoVal
  | vother : Nat → GoVal
deriving DecidableEq

/-- A Go map `map[string]interface{}` (`Log`, logger.go line 27), modelled as
an association list whose key list is duplicate-free in every map built by
the code. -/
abbrev LogMap := List (String × GoVal)

/-- Lookup `m[k]` in a Go map: the entry for key `k`, if present. -/
def lookupKV : LogMap → String → Option GoVal
  | [], _ => none
  | p :: rest, k => if p.1 = k then some p.2 else lookupKV rest k

/-- Key-membership test for a Go map. -/
def containsKV (m : LogMap) (k : String) : Bool :=
  (lookupKV m k).isSome

/-- Go map assignment `m[k] = v`: replaces the entry for `k` if present,
otherwise adds one. -/
def insertKV (m : LogMap) (k : String) (v : GoVal) : LogMap :=
  if containsKV m k then m.map (fun p => if p.1 = k then (k, v) else p)
  else m ++ [(k, v)]

/-- Go map deletion `delete(m, k)`. -/
def eraseKV (m : LogMap) (k : String) : LogMap :=
  m.filter (fun p => p.1 != k)

/-- The keys of a Go map have no duplicates. -/
abbrev NodupKeys (m : LogMap) : Prop :=
  (m.map Prod.fst).Nodup

/-- A heap of Go maps addressed by index, modelling that `Log` values are
references: Go code mutates the pointed-to map in place. -/
abbrev Heap := List LogMap

/-- Dereference a map reference (out-of-range references never occur). -/
def Heap.get : Heap → Nat → LogMap
  | [], _ => []
  | m :: _, 0 => m
  | _ :: rest, Nat.succ n => Heap.get rest n

/-- Overwrite the map a reference points to. -/
def Heap.set : Heap → Nat → LogMap → Heap
  | [], _, _ => []
  | _ :: rest, 0, v => v :: rest
  | m :: rest, Nat.succ n, v => m :: Heap.set rest n v

/-- Allocate a fresh map (`Log{}`), returning the extended heap and the new
reference. -/
def Heap.alloc (h : Heap) (m : LogMap) : Heap × Nat :=
  (h ++ [m], h.length)

/-- Embedding of `Log.From` (logger.go lines 60-65): for each key of the
argument `log`, assign into the receiver `l` in place (`l[key] = val`, so the
argument wins conflicting keys); return the receiver `l`. Iteration order of
the Go map is irrelevant to the resulting key-value function because the
written keys are distinct; the entries are folded in list order. -/
def logFrom (h : Heap) (l log : Nat) : Heap × Nat :=
  let merged := (h.get log).foldl (fun acc p => insertKV acc p.1 p.2) (h.get l)
  (h.set l merged, l)

/-- Embedding of `Log.Into` (logger.go lines 70-75): for each key of the
receiver `l`, assign into the argument `log` in place (`log[key] = val`, so
the receiver wins conflicting keys); return the argument `log`. -/
def logInto (h : Heap) (l log : Nat) : Heap × Nat :=
  let merged := (h.get l).foldl (fun acc p => insertKV acc p.1 p.2) (h.get log)
  (h.set log merged, log)

/-- Embedding of `Log.With` (logger.go lines 80-86): allocate `Log{}`, copy
the receiver into it with `l.Into(Log{})`, then assign every entry of the
argument over the copy (`cp[key] = val`); return the fresh copy. -/
def logWith (h : Heap) (l log : Nat) : Heap × Nat :=
  let a := Heap.alloc h []
  let b := logInto a.1 l a.2
  let merged := (b.1.get log).foldl (fun acc p => insertKV acc p.1 p.2) (b.1.get b.2)
  (b.1.set b.2 merged, b.2)

/-- Embedding of `Log.Reset` (logger.go lines 97-101): iterate over the keys
of the map, deleting each in place (`delete(l, key)`). -/
def logReset (m : LogMap) : LogMap :=
  (m.map Prod.fst).foldl (fun acc k => eraseKV acc k) m

/-- The request context fields read by the flush callback in `Serve`:
`ctx.Res.Status()` and `len(ctx.Res.Body())`. -/
structure Ctx where
  status : Int
  bodyLen : Int
deriving DecidableEq

/-- Outcome of the end-of-request flush callback: either the record was empty
and nothing happened (no stamping, no consume hook, no destination write), or
the consume hook was invoked with the stamped record. -/
inductive FlushResult where
  | skipped : FlushResult
  | consumed : LogMap → FlushResult
deriving DecidableEq

/-- Embedding of the `ctx.OnEnd` callback registered by `Logger.Serve`
(logger.go lines 479-487): an empty log is ignored outright; otherwise
`log["Status"]` and `log["Length"]` are stamped and `l.consume(log, ctx)` is
invoked. -/
def serveOnEnd (log : LogMap) (ctx : Ctx) : FlushResult :=
  if log.length = 0 then FlushResult.skipped
  else
    let log1 := insertKV log "Status" (GoVal.vint ctx.status)
    let log2 := insertKV log1 "Length" (GoVal.vint ctx.bodyLen)
    FlushResult.consumed log2

/-- Last-match lookup over raw entries: the value of the final entry carrying
key `k`, mirroring that later map assignments overwrite earlier ones. -/
def lastLookup : LogMap → String → Option GoVal
  | [], _ => none
  | p :: rest, k =>
    match lastLookup rest k with
    | some v => some v
    | none => if p.1 = k then some p.2 else none

/-- First-defined choice on options, used to state merge precedence. -/
def orO (a b : Option GoVal) : Option GoVal :=
  match a with
  | some v => some v
  | none => b

lemma lookup_map_overwrite_self (m : LogMap) (k : String) (v : GoVal)
    (hc : containsKV m k = true) :
    lookupKV (m.map (fun p => if p.1 = k then (k, v) else p)) k = some v := by
  induction m with
  | nil => simp [containsKV, lookupKV] at hc
  | cons p rest ih =>
    by_cases hp : p.1 = k
    · simp [lookupKV, hp]
    · have hc' : containsKV rest k = true := by
        simpa [containsKV, lookupKV, hp] using hc
      simp [lookupKV, hp, ih hc']

lemma lookup_append_single_self (m : LogMap) (k : String) (v : GoVal)
    (hc : lookupKV m k = none) :
    lookupKV (m ++ [(k, v)]) k = some v := by
  induction m with
  | nil => simp [lookupKV]
  | cons p rest ih =>
    by_cases hp : p.1 = k
    · simp [lookupKV, hp] at hc
    · simp only [lookupKV, hp, if_neg hp] at hc ⊢
      simpa [List.cons_append, lookupKV, hp] using ih hc

lemma lookup_insert_self (m : LogMap) (k : String) (v : GoVal) :
    lookupKV (insertKV m k v) k = some v := by
  unfold insertKV
  by_cases hc : containsKV m k
  · simpa [hc] using lookup_map_overwrite_self m k v hc
  · have hn : lookupKV m k = none := by
      cases hcase : lookupKV m k with
      | none => rfl
      | some v0 => exact absurd (by simp [containsKV, hcase]) hc
    simpa [hc] using lookup_append_single_self m k v hn

lemma lookup_map_overwrite_ne (m : LogMap) (k k' : String) (v : GoVal)
    (hne : k' ≠ k) :
    lookupKV (m.map (fun p => if p.1 = k then (k, v) else p)) k' = lookupKV m k' := by
  induction m with
  | nil => simp [lookupKV]
  | cons p rest ih =>
    have hk : ¬ (k = k') := fun h => hne h.symm
    by_cases hp : p.1 = k
    · have hp' : ¬ (p.1 = k') := by rw [hp]; exact hk
      simp [lookupKV, hp, hp', hk, ih]
    · simp [lookupKV, hp, ih]

lemma lookup_append_single_ne (m : LogMap) (k k' : String) (v : GoVal)
    (hne : k' ≠ k) :
    lookupKV (m ++ [(k, v)]) k' = lookupKV m k' := by
  induction m with
  | nil =>
    have hk : ¬ (k = k') := fun h => hne h.symm
    simp [lookupKV, hk]
  | cons p rest ih =>
    by_cases hp : p.1 = k'
    · simp [lookupKV, hp]
    · simpa [List.cons_append, lookupKV, hp] using ih

lemma lookup_insert_ne (m : LogMap) (k k' : String) (v : GoVal)
    (hne : k' ≠ k) :
    lookupKV (insertKV m k v) k' = lookupKV m k' := by
  unfold insertKV
  by_cases hc : containsKV m k
  · simpa [hc] using lookup_map_overwrite_ne m k k' v hne
  · simpa [hc] using lookup_append_single_ne m k k' v hne

lemma lookup_foldl_insert (es : LogMap) :
    ∀ (acc : LogMap) (k : String),
      lookupKV (es.foldl (fun a p => insertKV a p.1 p.2) acc) k
        = orO (lastLookup es k) (lookupKV acc k) := by
  induction es with
  | nil => intro acc k; simp [lastLookup, orO]
  | cons p rest ih =>
    intro acc k
    have step : (p :: rest).foldl (fun a q => insertKV a q.1 q.2) acc
        = rest.foldl (fun a q => insertKV a q.1 q.2) (insertKV acc p.1 p.2) := rfl
    rw [step, ih]
    cases h : lastLookup rest k with
    | some v => simp [lastLookup, h, orO]
    | none =>
      by_cases hp : p.1 = k
      · subst hp
        simp [lastLookup, h, orO, lookup_insert_self]
      · simp [lastLookup, h, orO, lookup_insert_ne acc p.1 k p.2 (Ne.symm hp), hp]

lemma lookup_eq_none_of_not_mem (m : LogMap) (k : String)
    (h : k ∉ m.map Prod.fst) : lookupKV m k = none := by
  induction m with
  | nil => simp [lookupKV]
  | cons p rest ih =>
    simp only [List.map_cons, List.mem_cons, not_or] at h
    have hp : ¬ (p.1 = k) := fun hh => h.1 hh.symm
    simp [lookupKV, hp, ih h.2]

lemma lastLookup_eq_none_of_not_mem (m : LogMap) (k : String)
    (h : k ∉ m.map Prod.fst) : lastLookup m k = none := by
  induction m with
  | nil => simp [lastLookup]
  | cons p rest ih =>
    simp only [List.map_cons, List.mem_cons, not_or] at h
    have hp : ¬ (p.1 = k) := fun hh => h.1 hh.symm
    simp [lastLookup, ih h.2, hp]

lemma lastLookup_eq_lookup (m : LogMap) (hm : NodupKeys m) (k : String) :
    lastLookup m k = lookupKV m k := by
  induction m with
  | nil => rfl
  | cons p rest ih =>
    have hm' : p.1 ∉ rest.map Prod.fst ∧ NodupKeys rest := by
      simpa [NodupKeys, List.nodup_cons] using hm
    by_cases hp : p.1 = k
    · subst hp
      simp [lastLookup, lookupKV, lastLookup_eq_none_of_not_mem rest p.1 hm'.1]
    · simp only [lastLookup, lookupKV, ih hm'.2, if_neg hp]
      cases lookupKV rest k <;> simp [hp]

lemma heap_get_set_self (h : Heap) :
    ∀ (r : Nat) (v : LogMap), r < h.length → Heap.get (Heap.set h r v) r = v := by
  induction h with
  | nil => intro r v hr; simp at hr
  | cons m rest ih =>
    intro r v hr
    cases r with
    | zero => rfl
    | succ n => exact ih n v (by simpa using hr)

lemma heap_get_set_ne (h : Heap) :
    ∀ (r q : Nat) (v : LogMap), r ≠ q → Heap.get (Heap.set h r v) q = Heap.get h q := by
  induction h with
  | nil => intro r q v _; cases r <;> rfl
  | cons m rest ih =>
    intro r q v hne
    cases r with
    | zero =>
      cases q with
      | zero => exact absurd rfl hne
      | succ nq => rfl
    | succ nr =>
      cases q with
      | zero => rfl
      | succ nq => exact ih nr nq v (fun hh => hne (congrArg Nat.succ hh))

lemma heap_get_append_lt (h h2 : Heap) :
    ∀ r : Nat, r < h.length → Heap.get (h ++ h2) r = Heap.get h r := by
  induction h with
  | nil => intro r hr; simp at hr
  | cons m rest ih =>
    intro r hr
    cases r with
    | zero => rfl
    | succ n => exact ih n (by simpa using hr)

lemma heap_get_append_len (h : Heap) (m : LogMap) :
    Heap.get (h ++ [m]) h.length = m := by
  induction h with
  | nil => rfl
  | cons x rest ih => simpa using ih

lemma mem_eraseKV (m : LogMap) (k : String) (p : String × GoVal)
    (hp : p ∈ eraseKV m k) : p ∈ m ∧ p.1 ≠ k := by
  have := List.mem_filter.mp hp
  exact ⟨this.1, by simpa using this.2⟩

lemma foldl_erase_eq_nil (ks : List String) :
    ∀ acc : LogMap, (∀ p ∈ acc, p.1 ∈ ks) →
      ks.foldl (fun a k => eraseKV a k) acc = [] := by
  induction ks with
  | nil =>
    intro acc hacc
    cases acc with
    | nil => rfl
    | cons p rest => exact absurd (hacc p (List.mem_cons_self p rest)) (by simp)
  | cons k ks ih =>
    intro acc hacc
    have step : (k :: ks).foldl (fun a q => eraseKV a q) acc
        = ks.foldl (fun a q => eraseKV a q) (eraseKV acc k) := rfl
    rw [step]
    refine ih (eraseKV acc k) ?_
    intro p hp
    obtain ⟨hmem, hne⟩ := mem_eraseKV acc k p hp
    have := hacc p hmem
    simp only [List.mem_cons] at this
    exact this.resolve_left hne

lemma mem_escChar (c' c : Char) (h : c ∈ escChar c') : c ≠ '\r' ∧ c ≠ '\n' := by
  unfold escChar at h
  by_cases h1 : c' = '\r'
  · simp [h1] at h
    rcases h with h | h <;> subst h <;> exact ⟨by decide, by decide⟩
  · by_cases h2 : c' = '\n'
    · simp [h1, h2] at h
      rcases h with h | h <;> subst h <;> exact ⟨by decide, by decide⟩
    · simp [h1, h2] at h
      subst h
      exact ⟨h1, h2⟩

lemma noCRLF_crlfEscape (s : String) :
    ∀ c ∈ (crlfEscape s).data, c ≠ '\r' ∧ c ≠ '\n' := by
  intro c hc
  have hc' : c ∈ (s.data.map escChar).flatten := hc
  obtain ⟨l, hl, hcl⟩ := List.mem_flatten.mp hc'
  obtain ⟨c', _, rfl⟩ := List.mem_map.mp hl
  exact mem_escChar c' c hcl

lemma orO_none_right (a : Option GoVal) : orO a none = a := by
  cases a <;> rfl

lemma heap_set_length (h : Heap) : ∀ (r : Nat) (v : LogMap),
    (Heap.set h r v).length = h.length := by
  induction h with
  | nil => intro r v; rfl
  | cons m rest ih =>
    intro r v
    cases r with
    | zero => rfl
    | succ n => simpa [Heap.set] using ih n v

/-- C10: the severity display operation (`Level.String`) returns the fixed
string "LOG" for every ordinal outside 0..7, and the canonical short name for
each of the 8 defined ordinals. -/
theorem c10_levelString_cases :
    (∀ l : Nat, 8 ≤ l → levelString l = "LOG")
    ∧ levelString 0 = "EMERG" ∧ levelString 1 = "ALERT" ∧ levelString 2 = "CRIT"
    ∧ levelString 3 = "ERR" ∧ levelString 4 = "WARNING" ∧ levelString 5 = "NOTICE"
    ∧ levelString 6 = "INFO" ∧ levelString 7 = "DEBUG" := by
  refine ⟨?_, rfl, rfl, rfl, rfl, rfl, rfl, rfl, rfl⟩
  intro l hl
  have h0 : l ≠ 0 := by omega
  have h1 : l ≠ 1 := by omega
  have h2 : l ≠ 2 := by omega
  have h3 : l ≠ 3 := by omega
  have h4 : l ≠ 4 := by omega
  have h5 : l ≠ 5 := by omega
  have h6 : l ≠ 6 := by omega
  have h7 : l ≠ 7 := by omega
  simp [levelString, EmergLevel, AlertLevel, CritiLevel, ErrLevel,
    WarningLevel, NoticeLevel, InfoLevel, DebugLevel, h0, h1, h2, h3, h4, h5, h6, h7]

/-- Witness for C10 at the out-of-range ordinal 42. -/
theorem c10_witness : levelString 42 = "LOG" :=
  c10_levelString_cases.1 42 (by decide)

/-- C9: the formatter `format` returns the structured render when the value
exposes the Messager capability and `Format()` succeeds; the debug render
(`String()`) together with the error when `Format()` fails; and the default
stringification with no error for a value without the capability. -/
theorem c9_format_cases :
    (∀ s fstr : String, ∀ e : GoErr,
      format (Value.messager (s, none) fstr) = (s, none)
      ∧ format (Value.messager (s, some e) fstr) = (fstr, some e))
    ∧ (∀ s : String, format (Value.plain s) = (s, none)) :=
  ⟨fun _ _ _ => ⟨rfl, rfl⟩, fun _ => rfl⟩

/-- C6: `Logger.Emerg` always invokes the output pipeline, for every
configured threshold (the result does not depend on `lg.l`), with the value
wrapped by `gear.ErrorWithStack`; there is no threshold check. -/
theorem c6_emerg_always_emits (lg : Logger) (v : Value) :
    lg.Emerg v = some ⟨levelString EmergLevel, OutVal.withStack v⟩ :=
  rfl

/-- C7: whenever the Emergency, Alert, Critical or Error method invokes the
output pipeline, the value it passes is wrapped in the error-with-call-stack
capability; whenever Warning, Notice, Informational, Debug or the formatted
Debug variant does, the value is passed through unwrapped. -/
theorem c7_wrapping (lg : Logger) (v : Value) (s : String) (c : OutputCall) :
    (lg.Emerg v = some c → c.val = OutVal.withStack v)
    ∧ (lg.Alert v = some c → c.val = OutVal.withStack v)
    ∧ (lg.Crit v = some c → c.val = OutVal.withStack v)
    ∧ (lg.Err v = some c → c.val = OutVal.withStack v)
    ∧ (lg.Warning v = some c → c.val = OutVal.raw v)
    ∧ (lg.Notice v = some c → c.val = OutVal.raw v)
    ∧ (lg.Info v = some c → c.val = OutVal.raw v)
    ∧ (lg.Debug v = some c → c.val = OutVal.raw v)
    ∧ (lg.Debugf s = some c → c.val = OutVal.raw (Value.plain s)) := by
  refine ⟨?_, ?_, ?_, ?_, ?_, ?_, ?_, ?_, ?_⟩ <;> intro h
  · injection h with h1; rw [← h1]
  · unfold Logger.Alert at h
    split at h
    · injection h with h1; rw [← h1]
    · exact Option.noConfusion h
  · unfold Logger.Crit at h
    split at h
    · injection h with h1; rw [← h1]
    · exact Option.noConfusion h
  · unfold Logger.Err at h
    split at h
    · injection h with h1; rw [← h1]
    · exact Option.noConfusion h
  · unfold Logger.Warning at h
    split at h
    · injection h with h1; rw [← h1]
    · exact Option.noConfusion h
  · unfold Logger.Notice at h
    split at h
    · injection h with h1; rw [← h1]
    · exact Option.noConfusion h
  · unfold Logger.Info at h
    split at h
    · injection h with h1; rw [← h1]
    · exact Option.noConfusion h
  · unfold Logger.Debug at h
    split at h
    · injection h with h1; rw [← h1]
    · exact Option.noConfusion h
  · unfold Logger.Debugf at h
    split at h
    · injection h with h1; rw [← h1]
    · exact Option.noConfusion h

/-- Witness for C7: a wrapped Alert call and an unwrapped Info call at
threshold 7. -/
theorem c7_witness :
    (OutputCall.mk "ALERT" (OutVal.withStack (Value.plain "x"))).val
      = OutVal.withStack (Value.plain "x")
    ∧ (OutputCall.mk "INFO" (OutVal.raw (Value.plain "x"))).val
      = OutVal.raw (Value.plain "x") :=
  ⟨(c7_wrapping ⟨7⟩ (Value.plain "x") "y"
      ⟨"ALERT", OutVal.withStack (Value.plain "x")⟩).2.1 rfl,
   (c7_wrapping ⟨7⟩ (Value.plain "x") "y"
      ⟨"INFO", OutVal.raw (Value.plain "x")⟩).2.2.2.2.2.2.1 rfl⟩

/-- C4: `Logger.SetLevel` raises the configuration error
"invalid logger level" for every `uint8` value outside 0..7 without touching
the threshold (the receiver is returned unchanged inside the error path: no
new logger state is produced), and sets the threshold and returns the Logger
for every value inside 0..7. -/
theorem c4_setLevel (lg : Logger) (level : Nat) :
    (level < 256 → 7 < level → lg.SetLevel level = Except.error "invalid logger level")
    ∧ (level ≤ 7 → lg.SetLevel level = Except.ok ⟨level⟩) := by
  constructor
  · intro _ h
    have h2 : level > DebugLevel := by unfold DebugLevel; omega
    simp [Logger.SetLevel, h2]
  · intro h
    have h2 : ¬ (level > DebugLevel) := by unfold DebugLevel; omega
    simp [Logger.SetLevel, h2]

/-- Witness for C4: level 8 is rejected, level 3 is applied. -/
theorem c4_witness :
    (Logger.mk 7).SetLevel 8 = Except.error "invalid logger level"
    ∧ (Logger.mk 7).SetLevel 3 = Except.ok ⟨3⟩ :=
  ⟨(c4_setLevel ⟨7⟩ 8).1 (by decide) (by decide), (c4_setLevel ⟨7⟩ 3).2 (by decide)⟩

lemma emit_guard_isSome (lg : Logger) (lvl : Nat) (c : OutputCall) :
    (if lg.checkLogLevel lvl then some c else none).isSome ↔ lvl ≤ lg.l := by
  by_cases h : lvl ≤ lg.l <;> simp [Logger.checkLogLevel, h]

lemma emit_guard_skip (lg : Logger) (lvl : Nat) (c : OutputCall) (w : WState)
    (render : OutputCall → WState → WState × Option GoErr) (h : ¬ lvl ≤ lg.l) :
    runEmit render w (if lg.checkLogLevel lvl then some c else none) = (w, none) := by
  simp [Logger.checkLogLevel, h, runEmit]

/-- C1: each leveled emission method below Emergency invokes the output
pipeline (`l.Output`) if and only if its severity ordinal is at most the
configured threshold `lg.l`; when the ordinal exceeds the threshold the
method returns nil and, for any installed output hook, leaves the
destination untouched (zero bytes written). -/
theorem c1_threshold_filtering (lg : Logger) (v : Value) (s : String)
    (w : WState) (render : OutputCall → WState → WState × Option GoErr) :
    (((lg.Alert v).isSome ↔ AlertLevel ≤ lg.l)
      ∧ (¬ AlertLevel ≤ lg.l → runEmit render w (lg.Alert v) = (w, none)))
    ∧ (((lg.Crit v).isSome ↔ CritiLevel ≤ lg.l)
      ∧ (¬ CritiLevel ≤ lg.l → runEmit render w (lg.Crit v) = (w, none)))
    ∧ (((lg.Err v).isSome ↔ ErrLevel ≤ lg.l)
      ∧ (¬ ErrLevel ≤ lg.l → runEmit render w (lg.Err v) = (w, none)))
    ∧ (((lg.Warning v).isSome ↔ WarningLevel ≤ lg.l)
      ∧ (¬ WarningLevel ≤ lg.l → runEmit render w (lg.Warning v) = (w, none)))
    ∧ (((lg.Notice v).isSome ↔ NoticeLevel ≤ lg.l)
      ∧ (¬ NoticeLevel ≤ lg.l → runEmit render w (lg.Notice v) = (w, none)))
    ∧ (((lg.Info v).isSome ↔ InfoLevel ≤ lg.l)
      ∧ (¬ InfoLevel ≤ lg.l → runEmit render w (lg.Info v) = (w, none)))
    ∧ (((lg.Debug v).isSome ↔ DebugLevel ≤ lg.l)
      ∧ (¬ DebugLevel ≤ lg.l → runEmit render w (lg.Debug v) = (w, none)))
    ∧ (((lg.Debugf s).isSome ↔ DebugLevel ≤ lg.l)
      ∧ (¬ DebugLevel ≤ lg.l → runEmit render w (lg.Debugf s) = (w, none))) := by
  refine ⟨⟨?_, ?_⟩, ⟨?_, ?_⟩, ⟨?_, ?_⟩, ⟨?_, ?_⟩, ⟨?_, ?_⟩, ⟨?_, ?_⟩, ⟨?_, ?_⟩, ⟨?_, ?_⟩⟩
  · exact emit_guard_isSome lg AlertLevel _
  · exact emit_guard_skip lg AlertLevel _ w render
  · exact emit_guard_isSome lg CritiLevel _
  · exact emit_guard_skip lg CritiLevel _ w render
  · exact emit_guard_isSome lg ErrLevel _
  · exact emit_guard_skip lg ErrLevel _ w render
  · exact emit_guard_isSome lg WarningLevel _
  · exact emit_guard_skip lg WarningLevel _ w render
  · exact emit_guard_isSome lg NoticeLevel _
  · exact emit_guard_skip lg NoticeLevel _ w render
  · exact emit_guard_isSome lg InfoLevel _
  · exact emit_guard_skip lg InfoLevel _ w render
  · exact emit_guard_isSome lg DebugLevel _
  · exact emit_guard_skip lg DebugLevel _ w render
  · exact emit_guard_isSome lg DebugLevel _
  · exact emit_guard_skip lg DebugLevel _ w render

/-- Witness for C1: at threshold 0 an Alert is filtered, returning nil and
writing nothing. -/
theorem c1_witness :
    runEmit (fun _ w => (w, none)) ⟨[], []⟩ ((Logger.mk 0).Alert (Value.plain "x"))
      = (⟨[], []⟩, none) :=
  (c1_threshold_filtering ⟨0⟩ (Value.plain "x") "x" ⟨[], []⟩
    (fun _ w => (w, none))).1.2 (by decide)

/-- C2: on every value whose render succeeds, the default output pipeline
emits the line built from the rendered string with exactly one trailing
newline stripped and every CR and LF escaped to the two-character sequences,
followed by the single terminating newline chunk; the escaped message
contains no raw CR or LF character. -/
theorem c2_escaping (v : Value) (s ts tag : String) (prev : List String)
    (hfmt : format v = (s, none)) :
    outputDefault ⟨prev, []⟩ ts tag v
      = (⟨prev ++ [defaultLF ts tag (crlfEscape (stripNL s)), "\n"], []⟩, none)
    ∧ ∀ c ∈ (crlfEscape (stripNL s)).data, c ≠ '\r' ∧ c ≠ '\n' := by
  constructor
  · unfold outputDefault
    rw [hfmt]
    simp [WState.write]
  · exact noCRLF_crlfEscape (stripNL s)

/-- Witness for C2: the message "a\r\nb\n" loses its one trailing newline and
is emitted with the CR and LF escaped. -/
theorem c2_witness :
    outputDefault ⟨[], []⟩ "t" "INFO" (Value.plain "a\r\nb\n")
      = (⟨[] ++ [defaultLF "t" "INFO" (crlfEscape (stripNL "a\r\nb\n")), "\n"], []⟩, none)
    ∧ ∀ c ∈ (crlfEscape (stripNL "a\r\nb\n")).data, c ≠ '\r' ∧ c ≠ '\n' :=
  c2_escaping (Value.plain "a\r\nb\n") "a\r\nb\n" "t" "INFO" [] rfl

/-- C5 counterexample: with a destination whose first write (the formatted
line) succeeds and whose second write (the single trailing newline byte)
fails with "disk full", the default pipeline still returns nil: the error of
the trailing-newline write is discarded
(`logger.Out.Write([]byte\x7b'\n'\x7d)` at logger.go line 219 ignores its
result), contradicting the claim that it is returned. -/
theorem c5_counterexample :
    outputDefault ⟨[], [none, some "disk full"]⟩ "t" "INFO" (Value.plain "hello")
      = (⟨["[t] INFO hello"], []⟩, none) := by
  rfl

/-- C5 amended: the default pipeline returns the serialization error when the
render fails (writing nothing), otherwise the error of the write of the
formatted line; when that write succeeds it returns nil, discarding any error
of the trailing-newline write. -/
theorem c5_amended_error_propagation (w : WState) (ts tag : String) (v : Value) :
    (outputDefault w ts tag v).2
      = match (format v).2 with
        | some e => some e
        | none =>
          match w.errs with
          | [] => none
          | e :: _ => e := by
  rcases w with ⟨chunks, errs⟩
  cases v with
  | plain s =>
    cases errs with
    | nil => rfl
    | cons e rest => cases e with
      | none => rfl
      | some e0 => rfl
  | messager fr str =>
    rcases fr with ⟨fs, fe⟩
    cases fe with
    | some e0 => rfl
    | none =>
      cases errs with
      | nil => rfl
      | cons e rest => cases e with
        | none => rfl
        | some e0 => rfl

/-- C8: `Log.Reset` deletes every key of the record, and the flush callback
registered by `Serve` does nothing at all for a record with zero keys:
no Status/Length stamping, no consume hook, hence no destination write. -/
theorem c8_reset_and_empty_flush :
    (∀ m : LogMap, logReset m = [])
    ∧ (∀ (log : LogMap) (ctx : Ctx), log.length = 0 →
        serveOnEnd log ctx = FlushResult.skipped) := by
  constructor
  · intro m
    exact foldl_erase_eq_nil (m.map Prod.fst) m
      (fun p hp => List.mem_map_of_mem Prod.fst hp)
  · intro log ctx h
    simp [serveOnEnd, h]

/-- Witness for C8: an empty record is silently skipped at flush. -/
theorem c8_witness : serveOnEnd [] ⟨200, 5⟩ = FlushResult.skipped :=
  c8_reset_and_empty_flush.2 [] ⟨200, 5⟩ rfl

/-- C3: over a heap of records, `Log.From` overwrites the receiver in place
with every key of the argument (argument wins conflicts) and returns the
receiver; `Log.Into` overwrites the argument in place with every key of the
receiver (receiver wins conflicts) and returns the argument; `Log.With`
returns a freshly allocated record equal to the receiver overlaid by the
argument (argument wins conflicts) while mutating neither original. -/
theorem c3_merge_algebra (h : Heap) (l m : Nat)
    (hl : l < h.length) (hm : m < h.length) (hlm : l ≠ m)
    (ndl : NodupKeys (h.get l)) (ndm : NodupKeys (h.get m)) :
    ((logFrom h l m).2 = l
      ∧ (∀ k, lookupKV ((logFrom h l m).1.get l) k
          = orO (lookupKV (h.get m) k) (lookupKV (h.get l) k))
      ∧ (logFrom h l m).1.get m = h.get m)
    ∧ ((logInto h l m).2 = m
      ∧ (∀ k, lookupKV ((logInto h l m).1.get m) k
          = orO (lookupKV (h.get l) k) (lookupKV (h.get m) k))
      ∧ (logInto h l m).1.get l = h.get l)
    ∧ ((logWith h l m).2 = h.length
      ∧ (logWith h l m).1.get l = h.get l
      ∧ (logWith h l m).1.get m = h.get m
      ∧ (∀ k, lookupKV ((logWith h l m).1.get (logWith h l m).2) k
          = orO (lookupKV (h.get m) k) (lookupKV (h.get l) k))) := by
  have hFrom_l : (logFrom h l m).1.get l
      = (h.get m).foldl (fun acc p => insertKV acc p.1 p.2) (h.get l) :=
    heap_get_set_self h l _ hl
  have hFrom_m : (logFrom h l m).1.get m = h.get m :=
    heap_get_set_ne h l m _ hlm
  have hInto_m : (logInto h l m).1.get m
      = (h.get l).foldl (fun acc p => insertKV acc p.1 p.2) (h.get m) :=
    heap_get_set_self h m _ hm
  have hInto_l : (logInto h l m).1.get l = h.get l :=
    heap_get_set_ne h m l _ (Ne.symm hlm)
  have hga_l : Heap.get (h ++ [[]]) l = h.get l := heap_get_append_lt h [[]] l hl
  have hga_m : Heap.get (h ++ [[]]) m = h.get m := heap_get_append_lt h [[]] m hm
  have hga_n : Heap.get (h ++ [[]]) h.length = [] := heap_get_append_len h []
  have hlen1 : (h ++ [[]]).length = h.length + 1 := by simp
  have hnl : h.length ≠ l := ne_of_gt hl
  have hnm : h.length ≠ m := ne_of_gt hm
  have hB : (logInto (h ++ [[]]) l h.length).1
      = Heap.set (h ++ [[]]) h.length
          ((h.get l).foldl (fun acc p => insertKV acc p.1 p.2) []) := by
    show Heap.set (h ++ [[]]) h.length
        ((Heap.get (h ++ [[]]) l).foldl (fun acc p => insertKV acc p.1 p.2)
          (Heap.get (h ++ [[]]) h.length)) = _
    rw [hga_l, hga_n]
  have hB_l : (logInto (h ++ [[]]) l h.length).1.get l = h.get l := by
    rw [hB, heap_get_set_ne _ _ _ _ hnl, hga_l]
  have hB_m : (logInto (h ++ [[]]) l h.length).1.get m = h.get m := by
    rw [hB, heap_get_set_ne _ _ _ _ hnm, hga_m]
  have hB_n : (logInto (h ++ [[]]) l h.length).1.get h.length
      = (h.get l).foldl (fun acc p => insertKV acc p.1 p.2) [] := by
    rw [hB]
    exact heap_get_set_self _ _ _ (by rw [hlen1]; exact Nat.lt_succ_self _)
  have hBlen : (logInto (h ++ [[]]) l h.length).1.length = h.length + 1 := by
    rw [hB, heap_set_length, hlen1]
  have hW1 : (logWith h l m).1
      = (logInto (h ++ [[]]) l h.length).1.set h.length
          (((logInto (h ++ [[]]) l h.length).1.get m).foldl
            (fun acc p => insertKV acc p.1 p.2)
            ((logInto (h ++ [[]]) l h.length).1.get h.length)) := rfl
  have hW2 : (logWith h l m).2 = h.length := rfl
  refine ⟨⟨rfl, ?_, hFrom_m⟩, ⟨rfl, ?_, hInto_l⟩, hW2, ?_, ?_, ?_⟩
  · intro k
    rw [hFrom_l, lookup_foldl_insert, lastLookup_eq_lookup (h.get m) ndm]
  · intro k
    rw [hInto_m, lookup_foldl_insert, lastLookup_eq_lookup (h.get l) ndl]
  · rw [hW1, heap_get_set_ne _ _ _ _ hnl, hB_l]
  · rw [hW1, heap_get_set_ne _ _ _ _ hnm, hB_m]
  · intro k
    rw [hW2, hW1, heap_get_set_self _ _ _ (by rw [hBlen]; exact Nat.lt_succ_self _),
      hB_m, hB_n, lookup_foldl_insert, lookup_foldl_insert,
      lastLookup_eq_lookup (h.get m) ndm, lastLookup_eq_lookup (h.get l) ndl]
    show orO (lookupKV (h.get m) k) (orO (lookupKV (h.get l) k) (lookupKV [] k)) = _
    have : lookupKV ([] : LogMap) k = none := rfl
    rw [this, orO_none_right]

/-- Witness for C3: merging `\x7b"b": 3, "c": 4\x7d` into
`\x7b"a": 1, "b": 2\x7d` with `From` yields value 3 at key "b" (the argument
wins the conflict). -/
theorem c3_witness :
    lookupKV ((logFrom [[("a", GoVal.vint 1), ("b", GoVal.vint 2)],
          [("b", GoVal.vint 3), ("c", GoVal.vint 4)]] 0 1).1.get 0) "b"
      = orO (lookupKV (Heap.get [[("a", GoVal.vint 1), ("b", GoVal.vint 2)],
            [("b", GoVal.vint 3), ("c", GoVal.vint 4)]] 1) "b")
          (lookupKV (Heap.get [[("a", GoVal.vint 1), ("b", GoVal.vint 2)],
            [("b", GoVal.vint 3), ("c", GoVal.vint 4)]] 0) "b") :=
  (c3_merge_algebra [[("a", GoVal.vint 1), ("b", GoVal.vint 2)],
      [("b", GoVal.vint 3), ("c", GoVal.vint 4)]] 0 1
    (by decide) (by decide) (by decide) (by decide) (by decide)).1.2.1 "b"

end GearLogging
